import Mathlib

/-!
# Verification of the release-plz release orchestration engine and git command layer

This file gives a shallow embedding, in Lean 4, of the parts of the
release-plz repository that its specification talks about:

* the **Release Orchestration Engine** (dependency graph, change detection,
  version decisions, changelog building, release planning).  The engine's
  source is not part of the given sources (only its integration tests in
  `crates/release_plz/tests/all/release_pr.rs` are), so these definitions
  are modelled from the specification text, as indicated in their doc
  comments.
* the **git command layer** `crates/git_cmd/src/lib.rs`, whose source is
  given and is embedded directly.

Strings from the Rust side are embedded as Lean `String`s; where we need to
reason inductively about the characters of a string we use `List Char`
(`String.toList`).
-/

set_option autoImplicit false

/-! ## String helpers shared by the embeddings -/

/-- Boolean test that `p` is a prefix of `s`, computed on the character
lists (kernel-friendly form of the usual string `starts_with`). -/
def strStartsWith (p s : String) : Bool := p.toList.isPrefixOf s.toList

/-- Boolean test that `pat` occurs as a contiguous infix of `l`. -/
def hasInfixL (pat : List Char) : List Char → Bool
  | [] => pat.isEmpty
  | c :: rest => pat.isPrefixOf (c :: rest) || hasInfixL pat rest

/-- Boolean test that the string `pat` occurs inside the string `s`
(model of Rust's `str::contains`). -/
def hasSubstr (s pat : String) : Bool := hasInfixL pat.toList s.toList

namespace ReleasePlz

/-! ## Version bumps and semantic versions -/

/-- Modelled from the spec: `VersionBump`, the "ordered enum
{None, Patch, Minor, Major}" of §3. -/
inductive VersionBump where
  | none
  | patch
  | minor
  | major
  deriving DecidableEq, Repr

/-- Numeric rank of a bump: Major > Minor > Patch > None (§3). -/
def VersionBump.toNat : VersionBump → Nat
  | .none => 0
  | .patch => 1
  | .minor => 2
  | .major => 3

/-- Modelled from the spec: the well-defined `max` on `VersionBump`,
"used when multiple signals apply to the same package" (§3). -/
def bumpMax (x y : VersionBump) : VersionBump :=
  if x.toNat ≤ y.toNat then y else x

/-- Modelled from the spec: a three-component semantic version (§3, glossary). -/
structure Semver where
  major : Nat
  minor : Nat
  patch : Nat
  deriving DecidableEq, Repr

/-- Modelled from the spec: applying a `VersionBump` to a version (§3):
"Major bump requires incrementing the major component (or minor, for
versions with major=0, matching semantic-version pre-1.0 rules);
Minor/Patch bump increments accordingly and resets lower components to
zero." -/
def bumpVersion (v : Semver) : VersionBump → Semver
  | .none => v
  | .patch => ⟨v.major, v.minor, v.patch + 1⟩
  | .minor => ⟨v.major, v.minor + 1, 0⟩
  | .major => if v.major = 0 then ⟨0, v.minor + 1, 0⟩ else ⟨v.major + 1, 0, 0⟩

/-! ## Packages and the dependency graph -/

/-- Modelled from the spec: a `Package` (§3) restricted to the fields the
engine's algorithms read: identity (name, unique within the workspace),
current on-disk version, and the identities of its intra-workspace
dependencies. -/
structure Package where
  name : String
  version : Semver
  deps : List String
  deriving DecidableEq, Repr

/-- Boolean membership of a string in a list (assoc-list style helper used
by the graph algorithms). -/
def memStr (n : String) : List String → Bool
  | [] => false
  | x :: xs => if n = x then true else memStr n xs

/-- The dependency list declared by the package named `n` (empty when no
such package is in the workspace). -/
def depsOf : List Package → String → List String
  | [], _ => []
  | p :: ps, n => if p.name = n then p.deps else depsOf ps n

/-- Remove every package with the given name from the workspace list. -/
def removeByName : List Package → String → List Package
  | [], _ => []
  | p :: ps, n => if p.name = n then removeByName ps n else p :: removeByName ps n

/-- The packages of `remaining` all of whose dependencies have already been
emitted: the candidates of one step of the topological traversal. -/
def readyList (emitted : List String) : List Package → List Package
  | [] => []
  | p :: ps =>
    if p.deps.all (fun d => memStr d emitted) then p :: readyList emitted ps
    else readyList emitted ps

/-- The package with the smallest name: the spec's topological order breaks
"ties ... by package identity for determinism" (§4.1). -/
def minByName : List Package → Option Package
  | [] => Option.none
  | [p] => some p
  | p :: q :: rest =>
    match minByName (q :: rest) with
    | some m => some (if p.name ≤ m.name then p else m)
    | Option.none => some p

/-- One fuelled Kahn-style traversal step; `Option.none` models the spec's
`CycleError` ("fails with `CycleError` if a dependency cycle is found",
§4.1): when no package is ready but packages remain, a cycle exists. -/
def topoGo : Nat → List String → List Package → Option (List Package)
  | _, _, [] => some []
  | 0, _, _ :: _ => Option.none
  | fuel + 1, emitted, p :: ps =>
    match minByName (readyList emitted (p :: ps)) with
    | Option.none => Option.none
    | some r =>
      match topoGo fuel (r.name :: emitted) (removeByName (p :: ps) r.name) with
      | some rest => some (r :: rest)
      | Option.none => Option.none

/-- Modelled from the spec: `topological_order()` of the DependencyGraph
(§4.1): "sequence of Package, dependencies before dependents, ties broken
by package identity for determinism"; `Option.none` is `CycleError`. -/
def topological_order (pkgs : List Package) : Option (List Package) :=
  topoGo pkgs.length [] pkgs

/-! ## Change detection input and compatibility reports -/

/-- Modelled from the spec: one `ChangeSet` entry (§3): whether the package
"changed directly", whether it "has never been released" (§4.2), and the
attributable commit subjects, oldest first. -/
structure ChangeEntry where
  changed_directly : Bool
  never_released : Bool
  commits : List String
  deriving Repr

/-- Modelled from the spec: the outcome of a `CompatibilityReport` (§3):
"one of {not-checked, compatible, breaking}". -/
inductive Compat where
  | notChecked
  | compatible
  | breaking
  deriving DecidableEq, Repr

/-- A commit subject is tagged as a feature addition when it carries the
conventional `feat` tag (the spec prescribes "conventional,
prefix-tagged commit messages", §1, §4.4). -/
def isFeat (s : String) : Bool := strStartsWith "feat:" s || strStartsWith "feat!" s

/-- A commit subject is tagged as a fix when it carries the conventional
`fix` tag (§4.4). -/
def isFix (s : String) : Bool := strStartsWith "fix:" s || strStartsWith "fix!" s

/-! ## The version decider (§4.3) -/

/-- Modelled from the spec: the options of `VersionDecider.decide`; the
one option the spec names is `features_always_increment_minor` (§4.3, §6). -/
structure DecideOptions where
  features_always_increment_minor : Bool
  deriving Repr

/-- Modelled from the spec, §4.3 step 1: for a directly-changed package,
"bump = Minor if any attributable commit is tagged as a feature addition
else Patch; if `compatibility_lookup(package)` reports `breaking`,
bump = Major, overriding the previous value (max rule applies: never
downgrade)."  The `features_always_increment_minor` sentence ("Minor-tagged
commits still force at least Minor even pre-1.0") implies that without the
option a pre-1.0 feature commit yields only Patch, which is how we model
the pre-1.0 case.  Packages that did not change directly get `none` here. -/
def step1Bump (p : Package) (entry : ChangeEntry) (compat : Compat)
    (opts : DecideOptions) : VersionBump :=
  if entry.changed_directly then
    let featB :=
      if opts.features_always_increment_minor then VersionBump.minor
      else if p.version.major = 0 then VersionBump.patch
      else VersionBump.minor
    let base := if entry.commits.any isFeat then featB else VersionBump.patch
    if compat = Compat.breaking then bumpMax base VersionBump.major else base
  else VersionBump.none

/-- Bump already decided for a package, `none` when not (yet) decided. -/
def lookupBump : List (String × VersionBump) → String → VersionBump
  | [], _ => VersionBump.none
  | x :: xs, n => if x.fst = n then x.snd else lookupBump xs n

/-- The names a frontier of package names depends on, directly or
transitively (fuelled breadth-first expansion; with fuel at least the
workspace size it covers every acyclic dependency chain). -/
def transDeps (pkgs : List Package) : Nat → List String → List String
  | 0, frontier => frontier
  | fuel + 1, frontier =>
    frontier ++ transDeps pkgs fuel (frontier.flatMap (depsOf pkgs))

/-- Modelled from the spec: a `ReleaseDecision` (§3): "Package identity,
previous version, computed next version, VersionBump applied, optional
CompatibilityReport" (the report is kept as its `Compat` outcome). -/
structure ReleaseDecision where
  name : String
  prev : Semver
  next : Semver
  bump : VersionBump
  compat : Compat
  deriving DecidableEq, Repr

/-- Modelled from the spec, §4.3: the body of `VersionDecider.decide`,
walking the packages in topological order while remembering each decided
bump.  Step 2: a package that "did not change directly but depends
(directly or transitively) on a package that received ANY bump" gets
Patch, merged with the step-1 bump by `bumpMax` ("keep the larger of the
two").  Step 3: if the merged bump is `none`, no decision is emitted.
Step 4: the next version comes from `bumpVersion`; a never-released
package keeps its on-disk version (§8: first-ever run expects next
version `0.1.0` for a package at `0.1.0`). -/
def decideLoop (pkgs : List Package) (changes : String → ChangeEntry)
    (compat : String → Compat) (opts : DecideOptions) :
    List (String × VersionBump) → List Package → List ReleaseDecision
  | _, [] => []
  | st, p :: rest =>
    let entry := changes p.name
    let direct := step1Bump p entry (compat p.name) opts
    let depB :=
      if (transDeps pkgs pkgs.length p.deps).any
          (fun d => !(lookupBump st d == VersionBump.none)) then
        VersionBump.patch
      else VersionBump.none
    let final := bumpMax direct depB
    let next := if entry.never_released then p.version else bumpVersion p.version final
    let tail := decideLoop pkgs changes compat opts ((p.name, final) :: st) rest
    if final = VersionBump.none then tail
    else ⟨p.name, p.version, next, final, compat p.name⟩ :: tail

/-- Modelled from the spec: `VersionDecider.decide(graph, change_set,
compatibility_lookup, options) -> ordered sequence of ReleaseDecision`
(§4.3), processing packages "in topological order (dependencies first)";
`Option.none` propagates the graph's `CycleError`. -/
def version_decide (pkgs : List Package) (changes : String → ChangeEntry)
    (compat : String → Compat) (opts : DecideOptions) :
    Option (List ReleaseDecision) :=
  match topological_order pkgs with
  | Option.none => Option.none
  | some sorted => some (decideLoop pkgs changes compat opts [] sorted)

/-! ## The changelog builder (§4.4) -/

/-- Modelled from the spec: the "categorized bullet list" of a
`ChangelogSection` (§3): "partition attributable commit subjects by
conventional prefix (feature→Added, fix→Fixed, others→Other); within a
category, preserve oldest-first order" (§4.4). -/
structure Categorized where
  added : List String
  fixed : List String
  other : List String
  deriving DecidableEq, Repr

/-- Modelled from the spec, §4.4: the categorization of attributable commit
subjects.  `List.filter` preserves the oldest-first input order inside
each category. -/
def categorize (commits : List String) : Categorized :=
  { added := commits.filter isFeat
    fixed := commits.filter (fun cm => !isFeat cm && isFix cm)
    other := commits.filter (fun cm => !isFeat cm && !isFix cm) }

/-- Modelled from the spec: a `ChangelogSection` (§3): "Package identity,
version, ISO date, categorized bullet list". -/
structure ChangelogSection where
  package : String
  version : Semver
  date : String
  categories : Categorized
  deriving DecidableEq, Repr

/-- Version rendered as `major.minor.patch`. -/
def verString (v : Semver) : String :=
  toString v.major ++ "." ++ toString v.minor ++ "." ++ toString v.patch

/-- The header text identifying a version's section inside a changelog
file: the spec's header is a link "from the version" (§4.4), written
`## [x.y.z](url) - date`, so the part identifying the version is
`## [x.y.z]`. -/
def sectionHeader (v : Semver) : String := "## [" ++ verString v ++ "]"

/-- One rendered category block; empty categories are omitted (§4.4). -/
def catBlock (title : String) (items : List String) : String :=
  if items.isEmpty then ""
  else "### " ++ title ++ "\n" ++ String.join (items.map (fun i => "- " ++ i ++ "\n"))

/-- The rendered categorized bullet list of a section (§4.4). -/
def renderCats (c : Categorized) : String :=
  catBlock "Added" c.added ++ catBlock "Fixed" c.fixed ++ catBlock "Other" c.other

/-- The raw text block of a section: version header, release date, then the
categorized list (§4.4). -/
def sectionText (s : ChangelogSection) : String :=
  sectionHeader s.version ++ " - " ++ s.date ++ "\n" ++ renderCats s.categories

/-- Modelled from the spec: `ChangelogBuilder.build(decision,
attributable_commits, existing_changelog) -> Option ChangelogSection`
(§4.4): "Returns none if `existing_changelog` already contains a section
header for the target version (idempotence — reruns before the previous
release is finalized must not duplicate or corrupt changelog history)." -/
def changelog_build (d : ReleaseDecision) (commits : List String)
    (existing_changelog : String) (date : String) : Option ChangelogSection :=
  if hasSubstr existing_changelog (sectionHeader d.next) then Option.none
  else some ⟨d.name, d.next, date, categorize commits⟩

/-- A new section is prepended to the changelog file: the file is
"append-only by version section, newest section first" (§6). -/
def prependSection (s : ChangelogSection) (existing_changelog : String) : String :=
  sectionText s ++ "\n" ++ existing_changelog

/-! ## The release planner (§4.5) -/

/-- Modelled from the spec: an `OutgoingRequest` (§3): "identity (number),
branch name, title, body, label set". -/
structure OutgoingRequest where
  number : Nat
  branch : String
  title : String
  body : String
  labels : List String
  deriving DecidableEq, Repr

/-- Modelled from the spec, §4.5: the label set of an updated request is
"the union of previously-applied labels and newly configured labels
(labels are never removed by a rerun)". -/
def unionLabels (applied configured : List String) : List String :=
  applied ++ configured.filter (fun l => !memStr l applied)

/-- Modelled from the spec, §4.5: `Create` "allocates a new branch name and
full label set". -/
def create_request (number : Nat) (branch title body : String)
    (labels : List String) : OutgoingRequest :=
  ⟨number, branch, title, body, labels⟩

/-- Modelled from the spec, §4.5: `Update` "preserves its identity and
branch, recomputes title/body, and computes the label set as the union of
previously-applied labels and newly configured labels". -/
def update_request (req : OutgoingRequest) (title body : String)
    (configured : List String) : OutgoingRequest :=
  { req with title := title, body := body, labels := unionLabels req.labels configured }

/-- Modelled from the spec: the result of
`reconcile(plan, existing_open_request)`: "{Create(plan) |
Update(request_id, plan) | NoOp}" (§4.5). -/
inductive ReconcileAction where
  | create (req : OutgoingRequest)
  | update (number : Nat) (req : OutgoingRequest)
  | noop
  deriving DecidableEq, Repr

/-- Modelled from the spec, §4.5 reconciliation: "if `decisions` is empty,
result is NoOp ...  If an open request from a prior run exists, Update
... If no open request exists, Create allocates a new branch name and
full label set." -/
def reconcile (decisions : List ReleaseDecision) (title body : String)
    (configured : List String) (newNumber : Nat) (newBranch : String)
    (existing : Option OutgoingRequest) : ReconcileAction :=
  if decisions.isEmpty then ReconcileAction.noop
  else
    match existing with
    | some req => ReconcileAction.update req.number (update_request req title body configured)
    | Option.none => ReconcileAction.create (create_request newNumber newBranch title body configured)

/-! ## Label validation (§4.5) -/

/-- Boolean test that a label has leading or trailing whitespace. -/
def hasOuterWhitespace (l : String) : Bool :=
  (match l.toList with
   | [] => false
   | c :: _ => c.isWhitespace) ||
  (match l.toList.getLast? with
   | some c => c.isWhitespace
   | Option.none => false)

/-- Modelled from the spec, §4.5: a single label is valid when it is
"non-empty, ≤50 characters, no leading/trailing whitespace". -/
def validLabel (l : String) : Bool :=
  !l.isEmpty && l.length ≤ 50 && !hasOuterWhitespace l

/-- The rule violated by label `l` given the already-seen labels `seen`
(duplicate detection is "within the configured set", §4.5), with the
diagnostic texts observed by the acceptance test
`release_plz_doesnt_add_invalid_labels_to_release_pr`. -/
def labelRuleError (l : String) (seen : List String) : Option String :=
  if memStr l seen then some "duplicate labels are not allowed"
  else if l.isEmpty then some "empty labels are not allowed"
  else if 50 < l.length then some "it exceeds maximum length of 50 characters"
  else if hasOuterWhitespace l then some "leading or trailing whitespace is not allowed"
  else Option.none

/-- Walk of the configured labels accumulating the set seen so far. -/
def validateGo : List String → List String → Except (String × String) Unit
  | [], _ => Except.ok ()
  | l :: rest, seen =>
    match labelRuleError l seen with
    | some reason => Except.error (l, reason)
    | Option.none => validateGo rest (l :: seen)

/-- Modelled from the spec, §4.5: "Label validation (non-empty, ≤50
characters, no leading/trailing whitespace, no duplicates within the
configured set) is checked before requesting label creation; any violation
fails the whole planning step with a descriptive error naming the
offending label and the specific rule violated."  The error carries the
offending label and the rule's diagnostic text. -/
def validate_labels (labels : List String) : Except (String × String) Unit :=
  validateGo labels []

/-- Modelled from the spec, §4.5/§7: the planning step guarded by label
validation: "any violation fails the whole planning step" (`LabelError` is
"fatal for the planning step", so no request is created or updated). -/
def plan_with_labels (labels : List String) (act : ReconcileAction) :
    Except (String × String) ReconcileAction :=
  match validate_labels labels with
  | Except.error e => Except.error e
  | Except.ok _ => Except.ok act

/-- The rule messages a label validation error can carry, each paired with
the fact it reports about the offending label (duplication is counted in
the whole configured list). -/
def reasonApplies (labels : List String) (l reason : String) : Prop :=
  (reason = "duplicate labels are not allowed" ∧ 2 ≤ labels.count l) ∨
  (reason = "empty labels are not allowed" ∧ l.isEmpty = true) ∨
  (reason = "it exceeds maximum length of 50 characters" ∧ 50 < l.length) ∨
  (reason = "leading or trailing whitespace is not allowed" ∧ hasOuterWhitespace l = true)

/-! ## Template rendering (§4.5, design note 2) -/

/-- Modelled from the spec, §4.5: the per-decision template data: "template
context exposes, per decision, previous version, next version,
compatibility status, and changelog text". -/
structure ReleaseInfo where
  package : String
  previous_version : Semver
  next_version : Semver
  compat : Compat
  changelog : String
  deriving Repr

/-- Modelled from the spec, design note 2: the template context is "an
explicit tagged structure (per-decision fields always present; scalar
single-package fields wrapped in an optional, present only when the
workspace has exactly one planned package)". -/
structure TemplateContext where
  releases : List ReleaseInfo
  single : Option (String × Semver)

/-- Modelled from the spec: building the template context from the planned
decisions; the scalar `package`/`version` pair is present exactly when one
package is planned (§4.5). -/
def makeContext (decisions : List ReleaseDecision) (changelogs : String → String) :
    TemplateContext :=
  { releases := decisions.map (fun d => ⟨d.name, d.prev, d.next, d.compat, changelogs d.name⟩)
    single :=
      match decisions with
      | [d] => some (d.name, d.next)
      | _ => Option.none }

/-- A template is a sequence of literal pieces and variable references
(the spec prescribes no concrete templating language, §1). -/
inductive TemplateToken where
  | lit (s : String)
  | var (name : String)
  deriving DecidableEq, Repr

/-- Workspace-level aggregate variables are always renderable (§4.5 exposes
"workspace-level aggregates (count of packages, list form)"). -/
def aggregateVar (ctx : TemplateContext) (v : String) : String :=
  if v = "package_count" then toString ctx.releases.length
  else if v = "releases" then String.intercalate ", " (ctx.releases.map (·.package))
  else ""

/-- Modelled from the spec, §4.5: variable lookup; a scalar single-package
variable is unavailable when the workspace plans more than one package:
"rendering fails with `TemplateError` if a template references a scalar
variable unavailable in a multi-package workspace (e.g., "the `package`
variable is not available")." -/
def renderVar (ctx : TemplateContext) (v : String) : Except String String :=
  if v = "package" then
    match ctx.single with
    | some s => Except.ok s.fst
    | Option.none => Except.error "the `package` variable is not available"
  else if v = "version" then
    match ctx.single with
    | some s => Except.ok (verString s.snd)
    | Option.none => Except.error "the `version` variable is not available"
  else Except.ok (aggregateVar ctx v)

/-- Rendering of one token. -/
def renderToken (ctx : TemplateContext) : TemplateToken → Except String String
  | TemplateToken.lit s => Except.ok s
  | TemplateToken.var v => renderVar ctx v

/-- Rendering of a whole template, failing at the first unavailable
variable. -/
def renderTokens (ctx : TemplateContext) : List TemplateToken → Except String String
  | [] => Except.ok ""
  | t :: ts =>
    match renderToken ctx t with
    | Except.error e => Except.error e
    | Except.ok s =>
      match renderTokens ctx ts with
      | Except.error e => Except.error e
      | Except.ok rest => Except.ok (s ++ rest)

/-- Modelled from the spec, §4.5/§7: rendering a named template; a failure
is a `TemplateError` whose message names the template that could not be
rendered (the acceptance test observes "failed to render pr_name"). -/
def render_template (tname : String) (ctx : TemplateContext)
    (toks : List TemplateToken) : Except String String :=
  match renderTokens ctx toks with
  | Except.ok s => Except.ok s
  | Except.error e => Except.error ("failed to render " ++ tname ++ ": " ++ e)

/-- Modelled from the spec, §4.5/§7: the title/body rendering stage of the
planning step; `TemplateError` is "fatal for the planning step — no
request is created/updated with malformed content". -/
def plan_render (ctx : TemplateContext) (titleToks bodyToks : List TemplateToken) :
    Except String (String × String) :=
  match render_template "pr_name" ctx titleToks with
  | Except.error e => Except.error e
  | Except.ok t =>
    match render_template "pr_body" ctx bodyToks with
    | Except.error e => Except.error e
    | Except.ok b => Except.ok (t, b)

/-! ## Change detection and symlinks (§4.2) -/

/-- Modelled from the spec, §4.2: "resolve each path through one level of
symlink indirection to its real target"; `links` maps a symlink path to
its target, and a non-symlink path resolves to itself. -/
def resolveOnce (links : String → Option String) (p : String) : String :=
  match links p with
  | some t => t
  | Option.none => p

/-- Modelled from the spec, §4.2 and §3: a touched path survives the
filters when its one-level-resolved target lies under the package root and
coincides with the resolved form of a file of the package's included file
set ("A file belongs to a package if it resolves (following symlink
targets) to a path under the package root that is not excluded by the
package's inclusion rules"). -/
def keep_path (links : String → Option String) (root : String)
    (included : List String) (t : String) : Bool :=
  strStartsWith root (resolveOnce links t) &&
  included.any (fun f => resolveOnce links f == resolveOnce links t)

/-- Modelled from the spec, §4.2: "a package is 'changed directly' iff at
least one surviving path remains after filtering, or if it has never been
released". -/
def changed_directly_detect (links : String → Option String) (root : String)
    (included : List String) (touched : List String) (never_released : Bool) : Bool :=
  never_released || touched.any (keep_path links root included)

end ReleasePlz

namespace GitCmd

/-!
## The git command layer, embedded from `src/crates/git_cmd/src/lib.rs`

Strings are embedded as `List Char` where we need to reason about their
characters (the functions below mirror the Rust string pipeline
operation by operation), and as `String` for opaque values such as error
messages.  Calls into the `git` binary are embedded as oracle arguments of
type `Except String String`: the stdout of the call on success, the
formatted error of `git_in_dir` on failure.
-/

/-- Rust `str::trim` on a character list: remove leading and trailing
whitespace. -/
def trimChars (l : List Char) : List Char :=
  ((l.dropWhile Char.isWhitespace).reverse.dropWhile Char.isWhitespace).reverse

/-- Rust `e.rsplit(' ').next()` on a character list: the suffix after the
last space, the whole list when no space occurs.  `rsplit` always yields
at least one item, so the `filter_map` in `changed_files` never drops a
line; hence this is total. -/
def afterLastSpace (l : List Char) : List Char :=
  (l.reverse.takeWhile (fun c => c != ' ')).reverse

/-- Rust `str::lines` on a character list, step one: split at every
newline character (keeping a trailing empty piece for a trailing
newline). -/
def splitOnNl : List Char → List (List Char)
  | [] => [[]]
  | c :: rest =>
    let r := splitOnNl rest
    if c = '\n' then [] :: r
    else
      match r with
      | [] => [[c]]
      | x :: xs => (c :: x) :: xs

/-- Rust `str::lines` on a character list: split at newlines, drop the
final empty piece produced by a trailing newline, and strip one trailing
carriage return from each line. -/
def rustLines (s : List Char) : List (List Char) :=
  let parts := splitOnNl s
  let parts := if parts.getLast? = some [] then parts.dropLast else parts
  parts.map (fun l => if l.getLast? = some '\r' then l.dropLast else l)

/-- Embedded from `changed_files` (src/crates/git_cmd/src/lib.rs, lines
374-383): lines of the `git status --porcelain` output are trimmed,
filtered by the caller's line filter, and mapped to
`e.rsplit(' ').next()`. -/
def changed_files (output : List Char) (filter : List Char → Bool) : List (List Char) :=
  ((((rustLines output).map trimChars).filter filter).map afterLastSpace)

/-- Embedded from `Repo::changes` (lines 102-109): runs
`git status --porcelain` (whose stdout is the oracle argument here) and
returns `changed_files` of its output. -/
def Repo.changes_list (statusStdout : List Char) (filter : List Char → Bool) :
    List (List Char) :=
  changed_files statusStdout filter

/-- Embedded from the `Repo` struct (lines 14-22): directory, branch name
and remote name captured when the `Repo` was created. -/
structure Repo where
  directory : String
  original_branch : String
  original_remote : String
  deriving DecidableEq, Repr

/-- The needle tested by `get_current_remote_and_branch` for a missing
upstream (line 63). -/
def noUpstreamNeedle : String := "fatal: no upstream configured for branch"

/-- The needle tested for a repository without commits (lines 67 and
422-424). -/
def ambiguousHeadNeedle : String :=
  "fatal: ambiguous argument 'HEAD': unknown revision or path not in the working tree."

/-- The error message constructed for a repository without commits
(lines 68 and 425). -/
def noCommitMessage : String := "git repository does not contain any commit."

/-- Rust `str::split_once` on a character list: split at the first
occurrence of `c`. -/
def splitOnceChar (c : Char) : List Char → Option (List Char × List Char)
  | [] => Option.none
  | x :: rest =>
    if x = c then some ([], rest)
    else
      match splitOnceChar c rest with
      | some (a, b) => some (x :: a, b)
      | Option.none => Option.none

/-- Rust `str::split_once` on strings. -/
def splitOnceStr (c : Char) (s : String) : Option (String × String) :=
  match splitOnceChar c s.toList with
  | some (a, b) => some (String.mk a, String.mk b)
  | Option.none => Option.none

/-- Embedded from the free function `get_current_branch` (lines 420-430):
the oracle argument is the result of `git rev-parse --abbrev-ref HEAD`; an
error mentioning the ambiguous-HEAD needle becomes the no-commit
message. -/
def get_current_branch (headQuery : Except String String) : Except String String :=
  match headQuery with
  | Except.ok b => Except.ok b
  | Except.error e =>
    if hasSubstr e ambiguousHeadNeedle then Except.error noCommitMessage
    else Except.error e

/-- Embedded from `Repo::get_current_remote_and_branch` (lines 44-74): the
first oracle argument is the result of
`git rev-parse --abbrev-ref --symbolic-full-name @{upstream}`, the second
that of `git rev-parse --abbrev-ref HEAD`.  On success the output is split
once at `/` into remote and branch; an error mentioning the missing
upstream falls back to remote "origin" with the current branch; an error
mentioning the ambiguous-HEAD needle becomes the no-commit message; any
other error is propagated. -/
def get_current_remote_and_branch (upstreamQuery headQuery : Except String String) :
    Except String (String × String) :=
  match upstreamQuery with
  | Except.ok output =>
    match splitOnceStr '/' output with
    | some rb => Except.ok rb
    | Option.none => Except.error "cannot determine current remote and branch"
  | Except.error e =>
    if hasSubstr e noUpstreamNeedle then
      match get_current_branch headQuery with
      | Except.ok branch => Except.ok ("origin", branch)
      | Except.error e2 => Except.error e2
    else if hasSubstr e ambiguousHeadNeedle then Except.error noCommitMessage
    else Except.error e

/-- Embedded from `Repo::new` (lines 24-38): determines remote and branch
and stores them with the directory; the surrounding anyhow context
("cannot determine current branch") wraps but preserves the underlying
message, which is what this embedding carries. -/
def Repo.new (directory : String) (upstreamQuery headQuery : Except String String) :
    Except String Repo :=
  match get_current_remote_and_branch upstreamQuery headQuery with
  | Except.ok rb => Except.ok ⟨directory, rb.snd, rb.fst⟩
  | Except.error e => Except.error e

/-- Embedded from `Repo::push` (lines 144-147): the git arguments issued. -/
def Repo.push_args (r : Repo) (obj : String) : List String :=
  ["push", r.original_remote, obj]

/-- Embedded from `Repo::fetch` (lines 149-152): the git arguments issued. -/
def Repo.fetch_args (r : Repo) (obj : String) : List String :=
  ["fetch", r.original_remote, obj]

/-- Embedded from `Repo::force_push` (lines 154-162): the git arguments
issued. -/
def Repo.force_push_args (r : Repo) (obj : String) : List String :=
  ["push", r.original_remote, obj, "--force-with-lease"]

end GitCmd

/-!
# Theorems

First some general lemmas about the helper functions, then one theorem per
specification claim (with a closed witness instance for each theorem that
carries hypotheses).
-/

theorem isPrefixOf_append_self (l t : List Char) : l.isPrefixOf (l ++ t) = true := by
  simp [ List.isPrefixOf_iff_prefix]

theorem hasInfixL_nil_pat (l : List Char) : hasInfixL [] l = true := by
  cases l <;> simp [hasInfixL, List.isPrefixOf]

theorem hasInfixL_append_self (pat t : List Char) : hasInfixL pat (pat ++ t) = true := by
  cases pat with
  | nil => exact hasInfixL_nil_pat t
  | cons c cs => simp [hasInfixL, isPrefixOf_append_self]

namespace ReleasePlz

theorem memStr_eq_true_iff (n : String) (l : List String) : memStr n l = true ↔ n ∈ l := by
  induction l with
  | nil => simp [memStr]
  | cons x xs ih =>
    by_cases h : n = x <;> simp [memStr, h, ih]

@[simp] theorem bumpMax_none_left (y : VersionBump) : bumpMax VersionBump.none y = y := by
  cases y <;> rfl

@[simp] theorem bumpMax_none_right (x : VersionBump) : bumpMax x VersionBump.none = x := by
  cases x <;> rfl

@[simp] theorem bumpMax_major_right (x : VersionBump) :
    bumpMax x VersionBump.major = VersionBump.major := by
  cases x <;> rfl

@[simp] theorem step1Bump_breaking (p : Package) (entry : ChangeEntry) (opts : DecideOptions)
    (h : entry.changed_directly = true) :
    step1Bump p entry Compat.breaking opts = VersionBump.major := by
  simp [step1Bump, h]

@[simp] theorem step1Bump_unchanged (p : Package) (entry : ChangeEntry) (compat : Compat)
    (opts : DecideOptions) (h : entry.changed_directly = false) :
    step1Bump p entry compat opts = VersionBump.none := by
  simp [step1Bump, h]

/-- C1: in a dependency chain A → B → C where a breaking change is confined
to C and neither A nor B changed directly, the version decider assigns a
Major bump to C and a Patch bump (not Major) to B and to A, and it emits
the decisions dependencies-first: C, then B, then A. -/
theorem chain_breaking_change_propagation (a b c : String)
    (hab : a ≠ b) (hac : a ≠ c) (hbc : b ≠ c)
    (va vb vc : Semver) (cs : List String) (opts : DecideOptions) :
    version_decide
      [⟨a, va, [b]⟩, ⟨b, vb, [c]⟩, ⟨c, vc, []⟩]
      (fun n => if n = c then ⟨true, false, cs⟩ else ⟨false, false, []⟩)
      (fun n => if n = c then Compat.breaking else Compat.notChecked)
      opts
    = some [⟨c, vc, bumpVersion vc VersionBump.major, VersionBump.major, Compat.breaking⟩,
            ⟨b, vb, bumpVersion vb VersionBump.patch, VersionBump.patch, Compat.notChecked⟩,
            ⟨a, va, bumpVersion va VersionBump.patch, VersionBump.patch, Compat.notChecked⟩] := by
  have hba := hab.symm
  have hca := hac.symm
  have hcb := hbc.symm
  simp [version_decide, topological_order, topoGo, readyList, memStr, minByName, removeByName,
    decideLoop, transDeps, depsOf, lookupBump,
    hab, hac, hbc, hba, hca, hcb]

/-- Closed instance of `chain_breaking_change_propagation` at the concrete
chain binary → library2 → library1 of the acceptance tests. -/
theorem chain_breaking_change_propagation_witness :
    version_decide
      [⟨"binary", ⟨1, 3, 0⟩, ["library2"]⟩,
       ⟨"library2", ⟨0, 2, 0⟩, ["library1"]⟩,
       ⟨"library1", ⟨0, 1, 0⟩, []⟩]
      (fun n => if n = "library1" then ⟨true, false, ["breaking change in library"]⟩
                else ⟨false, false, []⟩)
      (fun n => if n = "library1" then Compat.breaking else Compat.notChecked)
      ⟨false⟩
    = some [⟨"library1", ⟨0, 1, 0⟩, ⟨0, 2, 0⟩, VersionBump.major, Compat.breaking⟩,
            ⟨"library2", ⟨0, 2, 0⟩, ⟨0, 2, 1⟩, VersionBump.patch, Compat.notChecked⟩,
            ⟨"binary", ⟨1, 3, 0⟩, ⟨1, 3, 1⟩, VersionBump.patch, Compat.notChecked⟩] :=
  chain_breaking_change_propagation "binary" "library2" "library1"
    (by decide) (by decide) (by decide) ⟨1, 3, 0⟩ ⟨0, 2, 0⟩ ⟨0, 1, 0⟩
    ["breaking change in library"] ⟨false⟩

end ReleasePlz

namespace ReleasePlz

theorem hasSubstr_append_left (pat rest : String) : hasSubstr (pat ++ rest) pat = true := by
  unfold hasSubstr
  rw [show (pat ++ rest).toList = pat.toList ++ rest.toList from by simp [String.toList]]
  exact hasInfixL_append_self _ _

/-- C2: a changelog section is emitted at most once per (package, version)
pair: if the existing changelog already holds a section header for the
target version the builder returns none; after a successful build, running
the builder again over the updated changelog returns none; and a plan with
no effective content (no decisions) reconciles to `NoOp`, so a rerun
produces no new or duplicated outgoing request. -/
theorem changelog_section_emitted_at_most_once (d : ReleaseDecision) (commits : List String)
    (existing date date2 : String) :
    (hasSubstr existing (sectionHeader d.next) = true →
      changelog_build d commits existing date = Option.none) ∧
    (∀ sec, changelog_build d commits existing date = some sec →
      changelog_build d commits (prependSection sec existing) date2 = Option.none) ∧
    (∀ (title body : String) (configured : List String) (num : Nat) (br : String)
        (req : Option OutgoingRequest),
      reconcile [] title body configured num br req = ReconcileAction.noop) := by
  refine ⟨fun h => by simp [changelog_build, h], fun sec hsec => ?_,
    fun t b cfg n br req => by simp [reconcile]⟩
  by_cases hex : hasSubstr existing (sectionHeader d.next) = true
  · simp [changelog_build, hex] at hsec
  · simp [changelog_build, hex] at hsec
    have hv : sec.version = d.next := by rw [← hsec]
    have hsplit : prependSection sec existing
        = sectionHeader sec.version ++
          (" - " ++ (sec.date ++ ("\n" ++ (renderCats sec.categories ++ ("\n" ++ existing))))) := by
      simp [prependSection, sectionText, String.append_assoc]
    have htrue : hasSubstr (prependSection sec existing) (sectionHeader d.next) = true := by
      rw [hsplit, hv]
      exact hasSubstr_append_left _ _
    simp [changelog_build, htrue]

/-- Closed instance of `changelog_section_emitted_at_most_once`: with the
`0.1.0` header already present in the changelog, the builder emits
nothing. -/
theorem changelog_section_emitted_at_most_once_witness :
    changelog_build ⟨"pkg", ⟨0, 1, 0⟩, ⟨0, 1, 0⟩, VersionBump.patch, Compat.notChecked⟩
      ["feat: move readme"] "## [0.1.0](url) - 2024-01-01\n\n### Other\n\n- cargo init\n"
      "2024-01-02"
    = Option.none :=
  (changelog_section_emitted_at_most_once _ ["feat: move readme"]
    "## [0.1.0](url) - 2024-01-01\n\n### Other\n\n- cargo init\n" "2024-01-02" "x").1
    (by decide)

theorem mem_unionLabels (l : String) (applied configured : List String) :
    l ∈ unionLabels applied configured ↔ l ∈ applied ∨ l ∈ configured := by
  simp only [unionLabels, List.mem_append, List.mem_filter, Bool.not_eq_true',
    ← Bool.not_eq_true, memStr_eq_true_iff]
  by_cases h : l ∈ applied <;> simp [h]

/-- C3: reconciling a plan against an open request from a prior run updates
the request in place: the resulting label set is the union of the labels
already applied and the newly configured labels (no label is ever
removed), the branch and number are preserved; in particular applying
{"bug","enhancement"} and then {"needs-testing"} yields
{"bug","enhancement","needs-testing"}. -/
theorem labels_union_on_rerun (req : OutgoingRequest) (title body : String)
    (configured : List String) (decisions : List ReleaseDecision)
    (hne : decisions ≠ []) (num : Nat) (br : String) :
    (∃ r, reconcile decisions title body configured num br (some req)
        = ReconcileAction.update req.number r ∧
      r.branch = req.branch ∧
      r.labels = unionLabels req.labels configured ∧
      (∀ l, l ∈ r.labels ↔ (l ∈ req.labels ∨ l ∈ configured))) ∧
    unionLabels ["bug", "enhancement"] ["needs-testing"]
      = ["bug", "enhancement", "needs-testing"] := by
  obtain ⟨d, ds, rfl⟩ := List.exists_cons_of_ne_nil hne
  refine ⟨⟨update_request req title body configured, by simp [reconcile], rfl, rfl,
    fun l => ?_⟩, by decide⟩
  simpa [update_request] using mem_unionLabels l req.labels configured

/-- Closed instance of `labels_union_on_rerun` at the two label sets of the
acceptance test `release_plz_adds_labels_to_release_pr`. -/
theorem labels_union_on_rerun_witness :
    unionLabels ["bug", "enhancement"] ["needs-testing"]
      = ["bug", "enhancement", "needs-testing"] :=
  (labels_union_on_rerun ⟨1, "release-plz-2024", "chore: release", "", ["bug", "enhancement"]⟩
    "add labels to release label update" "" ["needs-testing"]
    [⟨"pkg", ⟨0, 1, 0⟩, ⟨0, 1, 0⟩, VersionBump.patch, Compat.notChecked⟩]
    (by decide) 2 "b").2

end ReleasePlz

namespace ReleasePlz

theorem labelRuleError_eq_none_iff (x : String) (seen : List String) :
    labelRuleError x seen = Option.none ↔ (validLabel x = true ∧ x ∉ seen) := by
  simp only [labelRuleError, validLabel]
  by_cases h1 : memStr x seen
  · simp [h1, (memStr_eq_true_iff x seen).mp h1]
  · have h1m : x ∉ seen := fun hm => h1 ((memStr_eq_true_iff x seen).mpr hm)
    by_cases h2 : x.isEmpty
    · simp [h1, h2]
    · by_cases h3 : 50 < x.length
      · simp [h1, h2, h3, Nat.not_le_of_lt h3]
      · by_cases h4 : hasOuterWhitespace x
        · simp [h1, h2, h3, h4]
        · simp [h1, h1m, h2, h3, Nat.le_of_not_lt h3, h4]

theorem validateGo_ok_iff (ls : List String) : ∀ seen : List String,
    validateGo ls seen = Except.ok () ↔
      ((∀ l ∈ ls, validLabel l = true) ∧ ls.Nodup ∧ ∀ l ∈ ls, l ∉ seen) := by
  induction ls with
  | nil => intro seen; simp [validateGo]
  | cons x rest ih =>
    intro seen
    cases hx : labelRuleError x seen with
    | some r =>
      simp only [validateGo, hx]
      constructor
      · intro h; exact absurd h (by simp)
      · rintro ⟨hall, -, hseen⟩
        have : labelRuleError x seen = Option.none :=
          (labelRuleError_eq_none_iff x seen).mpr
            ⟨hall x (by simp), hseen x (by simp)⟩
        rw [hx] at this; exact absurd this (by simp)
    | none =>
      obtain ⟨hvx, hxs⟩ := (labelRuleError_eq_none_iff x seen).mp hx
      simp only [validateGo, hx, ih (x :: seen)]
      constructor
      · rintro ⟨hall, hnd, hout⟩
        refine ⟨?_, ?_, ?_⟩
        · intro l hl
          rcases List.mem_cons.mp hl with rfl | hl
          · exact hvx
          · exact hall l hl
        · refine List.nodup_cons.mpr ⟨fun hmem => ?_, hnd⟩
          exact (hout x hmem) (by simp)
        · intro l hl
          rcases List.mem_cons.mp hl with rfl | hl
          · exact hxs
          · intro hl2; exact (hout l hl) (List.mem_cons_of_mem x hl2)
      · rintro ⟨hall, hnd, hout⟩
        obtain ⟨hxrest, hnd'⟩ := List.nodup_cons.mp hnd
        refine ⟨fun l hl => hall l (List.mem_cons_of_mem x hl), hnd', ?_⟩
        intro l hl hl2
        rcases List.mem_cons.mp hl2 with rfl | hl2
        · exact hxrest hl
        · exact (hout l (List.mem_cons_of_mem x hl)) hl2

theorem validateGo_error (ls : List String) : ∀ (seen : List String) (l reason : String),
    validateGo ls seen = Except.error (l, reason) →
    l ∈ ls ∧
      ((reason = "duplicate labels are not allowed" ∧ (l ∈ seen ∨ 2 ≤ ls.count l)) ∨
       (reason = "empty labels are not allowed" ∧ l.isEmpty = true) ∨
       (reason = "it exceeds maximum length of 50 characters" ∧ 50 < l.length) ∨
       (reason = "leading or trailing whitespace is not allowed" ∧
         hasOuterWhitespace l = true)) := by
  induction ls with
  | nil => intro seen l reason h; exact absurd h (by simp [validateGo])
  | cons x rest ih =>
    intro seen l reason h
    cases hx : labelRuleError x seen with
    | some r =>
      rw [validateGo, hx] at h
      obtain ⟨hl, hr⟩ : x = l ∧ r = reason := by
        have := Except.error.inj h
        exact ⟨congrArg Prod.fst this, congrArg Prod.snd this⟩
      subst hl; subst hr
      refine ⟨by simp, ?_⟩
      simp only [labelRuleError] at hx
      by_cases h1 : memStr x seen
      · rw [if_pos h1] at hx
        exact Or.inl ⟨(Option.some.inj hx).symm, Or.inl ((memStr_eq_true_iff x seen).mp h1)⟩
      · rw [if_neg h1] at hx
        by_cases h2 : x.isEmpty
        · rw [if_pos h2] at hx
          exact Or.inr (Or.inl ⟨(Option.some.inj hx).symm, h2⟩)
        · rw [if_neg h2] at hx
          by_cases h3 : 50 < x.length
          · rw [if_pos h3] at hx
            exact Or.inr (Or.inr (Or.inl ⟨(Option.some.inj hx).symm, h3⟩))
          · rw [if_neg h3] at hx
            by_cases h4 : hasOuterWhitespace x
            · rw [if_pos h4] at hx
              exact Or.inr (Or.inr (Or.inr ⟨(Option.some.inj hx).symm, h4⟩))
            · rw [if_neg h4] at hx; exact absurd hx (by simp)
    | none =>
      rw [validateGo, hx] at h
      obtain ⟨hmem, hres⟩ := ih (x :: seen) l reason h
      refine ⟨List.mem_cons_of_mem x hmem, ?_⟩
      rcases hres with ⟨hdup, hwhere⟩ | hrest
      · refine Or.inl ⟨hdup, ?_⟩
        rcases hwhere with hseen | hcount
        · rcases List.mem_cons.mp hseen with rfl | hseen
          · right
            have h1 : 1 ≤ rest.count l := List.count_pos_iff.mpr hmem
            have : rest.count l + 1 = (l :: rest).count l := (List.count_cons_self l rest).symm
            omega
          · exact Or.inl hseen
        · right
          calc 2 ≤ rest.count l := hcount
            _ ≤ (x :: rest).count l := List.count_le_count_cons ..
      · exact Or.inr hrest

/-- C4: label validation gates the planning step: validation succeeds
exactly when every configured label is non-empty, at most 50 characters,
free of leading/trailing whitespace, and no label is duplicated; any
violation produces an error naming the offending label and the rule it
violates, and makes the planning step fail so that no request is created
or updated. -/
theorem label_validation_gates_planning (labels : List String) :
    (validate_labels labels = Except.ok () ↔
      ((∀ l ∈ labels, validLabel l = true) ∧ labels.Nodup)) ∧
    (∀ l reason, validate_labels labels = Except.error (l, reason) →
      l ∈ labels ∧ reasonApplies labels l reason) ∧
    (∀ act l reason, validate_labels labels = Except.error (l, reason) →
      plan_with_labels labels act = Except.error (l, reason)) ∧
    (∀ act, validate_labels labels = Except.ok () →
      plan_with_labels labels act = Except.ok act) := by
  refine ⟨?_, ?_, ?_, ?_⟩
  · rw [validate_labels, validateGo_ok_iff labels []]
    simp
  · intro l reason h
    obtain ⟨hmem, hres⟩ := validateGo_error labels [] l reason h
    refine ⟨hmem, ?_⟩
    rcases hres with ⟨hdup, hwhere⟩ | hrest
    · rcases hwhere with hfalse | hcount
      · exact absurd hfalse (List.not_mem_nil l)
      · exact Or.inl ⟨hdup, hcount⟩
    · exact Or.inr hrest
  · intro act l reason h; simp [plan_with_labels, h]
  · intro act h; simp [plan_with_labels, h]

/-- Closed instance of `label_validation_gates_planning`: a label made of a
single space fails the planning step naming the whitespace rule, as in the
acceptance test `release_plz_doesnt_add_invalid_labels_to_release_pr`. -/
theorem label_validation_gates_planning_witness :
    plan_with_labels [" "] ReconcileAction.noop
      = Except.error (" ", "leading or trailing whitespace is not allowed") :=
  (label_validation_gates_planning [" "]).2.2.1 ReconcileAction.noop " "
    "leading or trailing whitespace is not allowed" (by rfl)

end ReleasePlz

namespace ReleasePlz

theorem renderTokens_scalar_error (ctx : TemplateContext)
    (hsingle : ctx.single = Option.none) :
    ∀ toks : List TemplateToken,
      (TemplateToken.var "package" ∈ toks ∨ TemplateToken.var "version" ∈ toks) →
      ∃ e, renderTokens ctx toks = Except.error e := by
  intro toks
  induction toks with
  | nil => intro hs; rcases hs with hs | hs <;> exact absurd hs (List.not_mem_nil _)
  | cons t ts ih =>
    intro hs
    have hstep : (t = TemplateToken.var "package" ∨ t = TemplateToken.var "version") ∨
        (TemplateToken.var "package" ∈ ts ∨ TemplateToken.var "version" ∈ ts) := by
      rcases hs with hs | hs
      · rcases List.mem_cons.mp hs with h | h
        · exact Or.inl (Or.inl h.symm)
        · exact Or.inr (Or.inl h)
      · rcases List.mem_cons.mp hs with h | h
        · exact Or.inl (Or.inr h.symm)
        · exact Or.inr (Or.inr h)
    rcases hstep with hself | hrest
    · rcases hself with rfl | rfl
      · exact ⟨"the `package` variable is not available",
          by simp [renderTokens, renderToken, renderVar, hsingle]⟩
      · exact ⟨"the `version` variable is not available",
          by simp [renderTokens, renderToken, renderVar, hsingle]⟩
    · cases h1 : renderToken ctx t with
      | error e => exact ⟨e, by simp [renderTokens, h1]⟩
      | ok s =>
        obtain ⟨e, he⟩ := ih hrest
        exact ⟨e, by simp [renderTokens, h1, he]⟩

/-- C5: with more than one planned package, rendering a template that
references a single-package scalar variable (`package` or `version`) fails
with a `TemplateError` naming the template that could not be rendered, and
the planning step fails whether the template is the title or the body, so
no request is created or updated with malformed content. -/
theorem scalar_template_fails_for_multi_package (d1 d2 : ReleaseDecision)
    (ds : List ReleaseDecision) (changelogs : String → String)
    (tname : String) (toks : List TemplateToken)
    (hs : TemplateToken.var "package" ∈ toks ∨ TemplateToken.var "version" ∈ toks) :
    (∃ e, render_template tname (makeContext (d1 :: d2 :: ds) changelogs) toks
        = Except.error ("failed to render " ++ tname ++ ": " ++ e)) ∧
    (∀ bodyToks, ∃ msg,
      plan_render (makeContext (d1 :: d2 :: ds) changelogs) toks bodyToks
        = Except.error msg) ∧
    (∀ titleToks, ∃ msg,
      plan_render (makeContext (d1 :: d2 :: ds) changelogs) titleToks toks
        = Except.error msg) := by
  have hsingle : (makeContext (d1 :: d2 :: ds) changelogs).single = Option.none := rfl
  obtain ⟨e, he⟩ := renderTokens_scalar_error _ hsingle toks hs
  refine ⟨⟨e, by simp [render_template, he]⟩, ?_, ?_⟩
  · intro bodyToks
    exact ⟨"failed to render " ++ "pr_name" ++ ": " ++ e,
      by simp [plan_render, render_template, he]⟩
  · intro titleToks
    cases h1 : renderTokens (makeContext (d1 :: d2 :: ds) changelogs) titleToks with
    | error e1 =>
      exact ⟨"failed to render " ++ "pr_name" ++ ": " ++ e1,
        by simp [plan_render, render_template, h1]⟩
    | ok s1 =>
      exact ⟨"failed to render " ++ "pr_body" ++ ": " ++ e,
        by simp [plan_render, render_template, h1, he]⟩

/-- Closed instance of `scalar_template_fails_for_multi_package`: a
two-package workspace rendering the title template `{{ package }}` fails
with a message naming `pr_name`, as in the acceptance test
`release_plz_should_fail_for_multi_package_pr`. -/
theorem scalar_template_fails_for_multi_package_witness :
    ∃ e, render_template "pr_name"
      (makeContext
        [⟨"one", ⟨0, 1, 0⟩, ⟨0, 1, 0⟩, VersionBump.patch, Compat.notChecked⟩,
         ⟨"two", ⟨0, 1, 0⟩, ⟨0, 1, 0⟩, VersionBump.patch, Compat.notChecked⟩]
        (fun _ => ""))
      [TemplateToken.lit "release: ", TemplateToken.var "package"]
    = Except.error ("failed to render " ++ "pr_name" ++ ": " ++ e) :=
  (scalar_template_fails_for_multi_package
    ⟨"one", ⟨0, 1, 0⟩, ⟨0, 1, 0⟩, VersionBump.patch, Compat.notChecked⟩
    ⟨"two", ⟨0, 1, 0⟩, ⟨0, 1, 0⟩, VersionBump.patch, Compat.notChecked⟩
    [] (fun _ => "") "pr_name"
    [TemplateToken.lit "release: ", TemplateToken.var "package"]
    (Or.inl (by decide))).1

/-- C6: with `features_always_increment_minor` set, a feature-tagged commit
on a pre-1.0 single-package workspace forces a Minor bump: version 0.1.0
becomes 0.2.0, and the commit is categorized under "Added" in the built
changelog section. -/
theorem features_flag_forces_minor_pre_one (name s date : String)
    (hfeat : isFeat s = true) :
    version_decide [⟨name, ⟨0, 1, 0⟩, []⟩]
      (fun _ => ⟨true, false, [s]⟩) (fun _ => Compat.notChecked) ⟨true⟩
    = some [⟨name, ⟨0, 1, 0⟩, ⟨0, 2, 0⟩, VersionBump.minor, Compat.notChecked⟩] ∧
    (categorize [s]).added = [s] ∧
    changelog_build ⟨name, ⟨0, 1, 0⟩, ⟨0, 2, 0⟩, VersionBump.minor, Compat.notChecked⟩
      [s] "" date
    = some ⟨name, ⟨0, 2, 0⟩, date, categorize [s]⟩ := by
  refine ⟨?_, by simp [categorize, hfeat], ?_⟩
  · simp [version_decide, topological_order, topoGo, readyList, minByName, removeByName,
      decideLoop, step1Bump, transDeps, bumpVersion, hfeat]
  · simp [changelog_build, show hasSubstr "" (sectionHeader ⟨0, 2, 0⟩) = false from by decide]

/-- Closed instance of `features_flag_forces_minor_pre_one` at the commit
of the acceptance test `release_plz_honors_features_always_increment_minor_flag`. -/
theorem features_flag_forces_minor_pre_one_witness :
    version_decide [⟨"pkg", ⟨0, 1, 0⟩, []⟩]
      (fun _ => ⟨true, false, ["feat: move readme"]⟩) (fun _ => Compat.notChecked) ⟨true⟩
    = some [⟨"pkg", ⟨0, 1, 0⟩, ⟨0, 2, 0⟩, VersionBump.minor, Compat.notChecked⟩] :=
  (features_flag_forces_minor_pre_one "pkg" "feat: move readme" "2024-01-01" (by decide)).1

/-- C7: change detection resolves paths through one level of symlink
indirection before matching against the package's included file set: a
touched file that is not itself in the include set still survives the
filters, and marks the package as changed directly, when an included
symlink resolves to it. -/
theorem symlinked_file_change_detected (links : String → Option String) (root : String)
    (included : List String) (syl target : String)
    (h1 : syl ∈ included) (h2 : links syl = some target)
    (h3 : links target = Option.none) (h4 : strStartsWith root target = true)
    (h5 : target ∉ included) :
    keep_path links root included target = true ∧
    ∀ (touched : List String) (nr : Bool), target ∈ touched →
      changed_directly_detect links root included touched nr = true := by
  have hrt : resolveOnce links target = target := by simp [resolveOnce, h3]
  have hkeep : keep_path links root included target = true := by
    simp only [keep_path, hrt, h4, Bool.true_and]
    exact List.any_eq_true.mpr ⟨syl, h1, by simp [resolveOnce, h2, h3]⟩
  refine ⟨hkeep, fun touched nr ht => ?_⟩
  simp only [changed_directly_detect, Bool.or_eq_true]
  exact Or.inr (List.any_eq_true.mpr ⟨target, ht, hkeep⟩)

/-- Closed instance of `symlinked_file_change_detected`: the package
includes only `/src` plus the symlinked readme, and a change to the real
readme file is still detected, as in the acceptance test
`release_plz_detects_symlink_package_changes`. -/
theorem symlinked_file_change_detected_witness :
    changed_directly_detect
      (fun p => if p = "pkg/README_SYMLINK.md" then some "pkg/README.md" else Option.none)
      "pkg/" ["pkg/src/lib.rs", "pkg/README_SYMLINK.md"]
      ["pkg/README.md"] false = true :=
  (symlinked_file_change_detected
    (fun p => if p = "pkg/README_SYMLINK.md" then some "pkg/README.md" else Option.none)
    "pkg/" ["pkg/src/lib.rs", "pkg/README_SYMLINK.md"]
    "pkg/README_SYMLINK.md" "pkg/README.md"
    (by decide) (by decide) (by decide) (by decide) (by decide)).2
    ["pkg/README.md"] false (by decide)

/-- C8: on the first-ever run of a single-package workspace with no prior
tag, exactly one release decision is produced, the next version stays
`0.1.0`, and the built changelog section puts the initial
(non-conventionally-prefixed) commits in the "Other" category, oldest
first. -/
theorem first_run_single_package (name date : String) (commits : List String)
    (hfeat : ∀ cm ∈ commits, isFeat cm = false)
    (hfix : ∀ cm ∈ commits, isFix cm = false) :
    version_decide [⟨name, ⟨0, 1, 0⟩, []⟩]
      (fun _ => ⟨true, true, commits⟩) (fun _ => Compat.notChecked) ⟨false⟩
    = some [⟨name, ⟨0, 1, 0⟩, ⟨0, 1, 0⟩, VersionBump.patch, Compat.notChecked⟩] ∧
    changelog_build ⟨name, ⟨0, 1, 0⟩, ⟨0, 1, 0⟩, VersionBump.patch, Compat.notChecked⟩
      commits "" date
    = some ⟨name, ⟨0, 1, 0⟩, date, ⟨[], [], commits⟩⟩ := by
  have hany : commits.any isFeat = false := List.any_eq_false.mpr (by simpa using hfeat)
  constructor
  · simp [version_decide, topological_order, topoGo, readyList, minByName, removeByName,
      decideLoop, step1Bump, transDeps, hany]
  · have hadded : commits.filter isFeat = [] :=
      List.filter_eq_nil_iff.mpr (fun a ha => by simp [hfeat a ha])
    have hfixed : commits.filter (fun cm => !isFeat cm && isFix cm) = [] :=
      List.filter_eq_nil_iff.mpr (fun a ha => by simp [hfeat a ha, hfix a ha])
    have hother : commits.filter (fun cm => !isFeat cm && !isFix cm) = commits :=
      List.filter_eq_self.mpr (fun a ha => by simp [hfeat a ha, hfix a ha])
    have hcat : categorize commits = ⟨[], [], commits⟩ := by
      simp [categorize, hadded, hfixed, hother]
    simp [changelog_build, hcat,
      show hasSubstr "" (sectionHeader ⟨0, 1, 0⟩) = false from by decide]

end ReleasePlz

namespace ReleasePlz

/-- Closed instance of `first_run_single_package` at the initial commits of
the acceptance test `release_plz_opens_pr_with_default_config`. -/
theorem first_run_single_package_witness :
    version_decide [⟨"pkg", ⟨0, 1, 0⟩, []⟩]
      (fun _ => ⟨true, true, ["cargo init", "Initial commit"]⟩)
      (fun _ => Compat.notChecked) ⟨false⟩
    = some [⟨"pkg", ⟨0, 1, 0⟩, ⟨0, 1, 0⟩, VersionBump.patch, Compat.notChecked⟩] :=
  (first_run_single_package "pkg" "2024-01-01" ["cargo init", "Initial commit"]
    (by decide) (by decide)).1

end ReleasePlz

namespace GitCmd

theorem takeWhile_all_append {α : Type} (q : α → Bool) (xs ys : List α)
    (h : ∀ x ∈ xs, q x = true) :
    (xs ++ ys).takeWhile q = xs ++ ys.takeWhile q := by
  induction xs with
  | nil => simp
  | cons x rest ih =>
    have hx : q x = true := h x (by simp)
    simp only [List.cons_append, List.takeWhile_cons, hx, if_true]
    rw [ih (fun y hy => h y (List.mem_cons_of_mem x hy))]

/-- C9: `changed_files` maps every trimmed line of the `git status
--porcelain` output accepted by the filter to the part after the line's
last space character: the returned list is exactly those fragments, the
fragment of a line containing a space is its final space-separated token,
and a line without spaces is kept whole.  In particular a path whose name
contains a space is reported truncated. -/
theorem changed_files_last_space_token (output : List Char) (p : List Char → Bool) :
    changed_files output p
      = (((rustLines output).map trimChars).filter p).map afterLastSpace ∧
    (∀ pre suf : List Char, ' ' ∉ suf → afterLastSpace (pre ++ ' ' :: suf) = suf) ∧
    (∀ l : List Char, ' ' ∉ l → afterLastSpace l = l) := by
  refine ⟨rfl, fun pre suf hs => ?_, fun l hl => ?_⟩
  · have hrev : (pre ++ ' ' :: suf).reverse = suf.reverse ++ ' ' :: pre.reverse := by
      simp
    have hall : ∀ x ∈ suf.reverse, (x != ' ') = true := by
      intro x hx
      have : x ∈ suf := List.mem_reverse.mp hx
      simp only [bne_iff_ne, ne_eq]
      exact fun hc => hs (hc ▸ this)
    rw [afterLastSpace, hrev, takeWhile_all_append _ _ _ hall]
    simp [List.takeWhile_cons]
  · have hall : ∀ x ∈ l.reverse, (x != ' ') = true := by
      intro x hx
      have : x ∈ l := List.mem_reverse.mp hx
      simp only [bne_iff_ne, ne_eq]
      exact fun hc => hl (hc ▸ this)
    rw [afterLastSpace, show l.reverse.takeWhile (fun c => c != ' ') = l.reverse from ?_]
    · simp
    · rw [show l.reverse = l.reverse ++ [] from by simp, takeWhile_all_append _ _ _ ?_]
      · simp
      · simpa using hall

/-- Closed instance of `changed_files_last_space_token`: a status line for
the path `my file.txt` is truncated to its final space-separated token. -/
theorem changed_files_last_space_token_witness :
    afterLastSpace ("M  my".toList ++ ' ' :: "file.txt".toList) = "file.txt".toList :=
  (changed_files_last_space_token [] (fun _ => true)).2.1
    "M  my".toList "file.txt".toList (by decide)

/-- C10: when the current branch has no upstream configured, `Repo::new`
succeeds by falling back to the remote name "origin" paired with the
current branch, so `push`, `fetch` and `force_push` all target "origin";
and `Repo::new` fails with "git repository does not contain any commit."
only when git itself reported the ambiguous-HEAD error that a repository
without commits produces. -/
theorem repo_new_no_upstream_origin_fallback (dir b obj eUp : String)
    (hup : hasSubstr eUp noUpstreamNeedle = true) :
    (∃ r : Repo, Repo.new dir (Except.error eUp) (Except.ok b) = Except.ok r ∧
      r.original_remote = "origin" ∧ r.original_branch = b ∧
      r.push_args obj = ["push", "origin", obj] ∧
      r.fetch_args obj = ["fetch", "origin", obj] ∧
      r.force_push_args obj = ["push", "origin", obj, "--force-with-lease"]) ∧
    (∀ up hq : Except String String,
      (∀ e, up = Except.error e → e ≠ noCommitMessage) →
      (∀ e, hq = Except.error e → e ≠ noCommitMessage) →
      Repo.new dir up hq = Except.error noCommitMessage →
      (∃ e, up = Except.error e ∧ hasSubstr e ambiguousHeadNeedle = true) ∨
      (∃ e e2, up = Except.error e ∧ hasSubstr e noUpstreamNeedle = true ∧
        hq = Except.error e2 ∧ hasSubstr e2 ambiguousHeadNeedle = true)) := by
  constructor
  · refine ⟨⟨dir, b, "origin"⟩, ?_, rfl, rfl, rfl, rfl, rfl⟩
    simp [Repo.new, get_current_remote_and_branch, get_current_branch, hup]
  · intro up hq hraw1 hraw2 hnew
    cases up with
    | ok output =>
      cases hsp : splitOnceStr '/' output with
      | some rb => simp [Repo.new, get_current_remote_and_branch, hsp] at hnew
      | none =>
        simp [Repo.new, get_current_remote_and_branch, hsp] at hnew
        exact absurd hnew (by decide)
    | error e =>
      by_cases h1 : hasSubstr e noUpstreamNeedle = true
      · cases hq with
        | ok br =>
          simp [Repo.new, get_current_remote_and_branch, get_current_branch, h1] at hnew
        | error e2 =>
          by_cases h2 : hasSubstr e2 ambiguousHeadNeedle = true
          · exact Or.inr ⟨e, e2, rfl, h1, rfl, h2⟩
          · simp [Repo.new, get_current_remote_and_branch, get_current_branch, h1, h2] at hnew
            exact absurd hnew (hraw2 e2 rfl)
      · by_cases h2 : hasSubstr e ambiguousHeadNeedle = true
        · exact Or.inl ⟨e, rfl, h2⟩
        · simp [Repo.new, get_current_remote_and_branch, h1, h2] at hnew
          exact absurd hnew (hraw1 e rfl)

/-- Closed instance of `repo_new_no_upstream_origin_fallback` at a concrete
"no upstream configured" git error. -/
theorem repo_new_no_upstream_origin_fallback_witness :
    ∃ r : Repo,
      Repo.new "dir"
        (Except.error "fatal: no upstream configured for branch 'main'")
        (Except.ok "main")
      = Except.ok r ∧
      r.original_remote = "origin" ∧ r.original_branch = "main" ∧
      r.push_args "main" = ["push", "origin", "main"] ∧
      r.fetch_args "main" = ["fetch", "origin", "main"] ∧
      r.force_push_args "main" = ["push", "origin", "main", "--force-with-lease"] :=
  (repo_new_no_upstream_origin_fallback "dir" "main" "main"
    "fatal: no upstream configured for branch 'main'" (by decide)).1

end GitCmd
